import Mathlib

/-!
Verification development for the multi-agent workflow coordination core
(`multi_agent_system/core`): agent registry with dependency-ordered
scheduling, workflow state bookkeeping, per-agent retry, failure recovery
policy, and the shared data store.

The Python source is shallowly embedded: dictionaries become association
lists in insertion order, `datetime` timestamps become abstract `Nat`
values, raised exceptions become `Except.error` carrying the exception
message, and the opaque agent collaborators (`validate_input` / `execute` /
`format_output`, which wrap an external LLM backend) are abstracted into a
behavior function giving each execution attempt's outcome.  Logging,
progress callbacks, and best-effort disk persistence have no effect on any
state the theorems mention and are not modelled.
-/

/-! ## models.py — WorkflowStatus, WorkflowState -/

/-- Workflow execution status (`models.WorkflowStatus`). -/
inductive WorkflowStatus where
  | pending
  | in_progress
  | completed
  | failed
  | cancelled
deriving DecidableEq, Repr

/-- Workflow execution state (`models.WorkflowState`).  Timestamps are
abstract clock values. -/
structure WorkflowState where
  workflow_id : String
  status : WorkflowStatus := WorkflowStatus.pending
  current_agent : Option String := none
  completed_agents : List String := []
  failed_agents : List String := []
  start_time : Option Nat := none
  end_time : Option Nat := none
  error_message : Option String := none
deriving DecidableEq, Repr

/-- `WorkflowState.mark_agent_completed`: append to `completed_agents` when
absent; remove the first occurrence from `failed_agents` when present
(Python `list.remove` guarded by a membership test, which `List.erase`
matches exactly). -/
def mark_agent_completed (state : WorkflowState) (agent_name : String) : WorkflowState :=
  let completed :=
    if agent_name ∈ state.completed_agents then state.completed_agents
    else state.completed_agents ++ [agent_name]
  { state with
      completed_agents := completed,
      failed_agents := state.failed_agents.erase agent_name }

/-- `WorkflowState.mark_agent_failed`: append to `failed_agents` when absent
and set `error_message`.  The source does not touch `completed_agents`. -/
def mark_agent_failed (state : WorkflowState) (agent_name error_message : String) : WorkflowState :=
  let failed :=
    if agent_name ∈ state.failed_agents then state.failed_agents
    else state.failed_agents ++ [agent_name]
  { state with
      failed_agents := failed,
      error_message := some error_message }

/-! ## agent_registry.py — AgentRegistry

The registry state that `get_execution_order` reads is the mapping
agent name → dependency list, in registration order (`self._agents` and
`self._dependencies` share their keys).  It is embedded as an association
list with distinct keys. -/

/-- Registry contents: (agent name, declared dependencies) in registration
order. -/
abbrev AgentRegistry := List (String × List String)

/-- `AgentRegistry.list_agents`: the registered names in registration
order (`list(self._agents.keys())`). -/
def list_agents (reg : AgentRegistry) : List String := reg.map Prod.fst

/-- Membership test `name in self._agents`. -/
def is_registered (reg : AgentRegistry) (a : String) : Bool :=
  (list_agents reg).contains a

/-- Dictionary lookup `self._dependencies.get(agent_name, [])`. -/
def deps_of (reg : AgentRegistry) (a : String) : List String :=
  ((reg.find? (fun p => p.1 == a)).map Prod.snd).getD []

/-- The `for dep in self._dependencies.get(agent_name, [])` loop inside
`visit`: check each dependency is registered, then visit it; the first
raised error aborts the whole traversal. -/
def visit_deps (step : List String → String → Except String (List String))
    (chk : String → Bool) (errf : String → String) :
    List String → List String → Except String (List String)
  | r, [] => Except.ok r
  | r, d :: ds =>
    if chk d then
      match step r d with
      | Except.ok r2 => visit_deps step chk errf r2 ds
      | Except.error e => Except.error e
    else Except.error (errf d)

/-- The recursive `visit` helper of `AgentRegistry.get_execution_order`.
`temp` is Python's `temp_visited` (the active recursion stack; pushed
before the dependency loop and popped after, hence passed down but not
returned).  Python's `visited` set always equals the set of elements of
`result`, so `result` plays both roles here.  `fuel` bounds the recursion
depth, which in Python is implicit; any fuel exceeding the number of
registered agents is enough (`visit_ok_of_acyclic`). -/
def visit (reg : AgentRegistry) :
    Nat → List String → List String → String → Except String (List String)
  | 0, _, _, _ => Except.error "recursion depth exceeded"
  | Nat.succ fuel, temp, result, a =>
    if a ∈ temp then
      Except.error ("Circular dependency detected involving agent " ++ a)
    else if a ∈ result then
      Except.ok result
    else
      match visit_deps (fun r d => visit reg fuel (a :: temp) r d)
          (fun d => is_registered reg d)
          (fun d => "Dependency " ++ d ++ " for agent " ++ a ++ " not found")
          result (deps_of reg a) with
      | Except.ok r => Except.ok (r ++ [a])
      | Except.error e => Except.error e

/-- The outer `for agent_name in self._agents` loop of
`get_execution_order` (the `not in visited` test is the same test `visit`
performs first, kept for faithfulness). -/
def order_loop (reg : AgentRegistry) (fuel : Nat) :
    List String → List String → Except String (List String)
  | result, [] => Except.ok result
  | result, a :: rest =>
    if a ∈ result then order_loop reg fuel result rest
    else
      match visit reg fuel [] result a with
      | Except.ok r => order_loop reg fuel r rest
      | Except.error e => Except.error e

/-- `AgentRegistry.get_execution_order`: depth-first topological sort;
`ValueError` messages become `Except.error`. -/
def get_execution_order (reg : AgentRegistry) : Except String (List String) :=
  order_loop reg (reg.length + 1) [] (list_agents reg)

/-- The double loop of `AgentRegistry.validate_dependencies` over
`self._dependencies.items()`. -/
def validate_deps_loop (reg : AgentRegistry) :
    List (String × List String) → Except String Unit
  | [] => Except.ok ()
  | (a, ds) :: rest =>
    match ds.find? (fun d => !(is_registered reg d)) with
    | some d => Except.error ("Agent " ++ a ++ " depends on " ++ d ++ " which is not registered")
    | none => validate_deps_loop reg rest

/-- `AgentRegistry.validate_dependencies`: check every declared dependency
resolves, then run `get_execution_order` purely to surface cycle errors
(re-wrapped with a "Dependency validation failed" prefix, as in the
source). -/
def validate_dependencies (reg : AgentRegistry) : Except String Unit :=
  match validate_deps_loop reg reg with
  | Except.error e => Except.error e
  | Except.ok _ =>
    match get_execution_order reg with
    | Except.error e => Except.error ("Dependency validation failed: " ++ e)
    | Except.ok _ => Except.ok ()

/-! Specification-side predicates about the dependency graph, used to state
the topological-sort claims. -/

/-- Edge relation of the dependency graph: `a` depends directly on `b`. -/
def DepRel (reg : AgentRegistry) (a b : String) : Prop := b ∈ deps_of reg a

/-- The dependency graph has no (directed) cycle. -/
def Acyclic (reg : AgentRegistry) : Prop :=
  ∀ a, ¬ Relation.TransGen (DepRel reg) a a

/-- Every declared dependency names a registered agent. -/
def DepsRegistered (reg : AgentRegistry) : Prop :=
  ∀ p ∈ reg, ∀ d ∈ p.2, is_registered reg d = true

/-- Every element of `l` is preceded by all of its declared dependencies:
position `i` only mentions dependencies that already occur among the first
`i` elements. -/
def ClosedUnder (reg : AgentRegistry) (l : List String) : Prop :=
  ∀ i : Fin l.length, ∀ d ∈ deps_of reg (l.get i), d ∈ l.take i.1

/-! ## coordinator.py — recovery policy -/

/-- Result of a recovery attempt (`coordinator.RecoveryResult`). -/
structure RecoveryResult where
  success : Bool
  strategy : String
  message : String
  requires_user_intervention : Bool := false
  error_details : Option String := none
deriving DecidableEq, Repr

/-- Whether `pat` occurs at the start of `l` (helper for Python's `in`
substring test). -/
def list_starts_with : List Char → List Char → Bool
  | _, [] => true
  | [], _ :: _ => false
  | c :: cs, p :: ps => c == p && list_starts_with cs ps

/-- Whether `pat` occurs contiguously anywhere in `l`. -/
def list_contains_seq : List Char → List Char → Bool
  | [], pat => pat.isEmpty
  | c :: cs, pat => list_starts_with (c :: cs) pat || list_contains_seq cs pat

/-- Python's `pat in s` substring containment. -/
def contains_substr (s pat : String) : Bool :=
  list_contains_seq s.toList pat.toList

/-- Python's `str.lower()` (character-wise, which is what it does on the
ASCII error texts involved). -/
def lower_str (s : String) : String :=
  String.mk (s.toList.map Char.toLower)

/-- ASCII whitespace, for `str.strip()`. -/
def is_ws (c : Char) : Bool :=
  c == ' ' || c == '\t' || c == '\n' || c == '\r'

/-- Python's `str.strip()` on ASCII whitespace. -/
def trim_str (s : String) : String :=
  String.mk (((s.toList.dropWhile is_ws).reverse.dropWhile is_ws).reverse)

/-- The indicator list of `MultiAgentCoordinator._is_transient_error`. -/
def transient_error_indicators : List String :=
  ["timeout", "connection", "network", "temporary", "temporarily", "rate limit",
   "service unavailable", "unavailable", "too many requests", "quota exceeded"]

/-- `MultiAgentCoordinator._is_transient_error`, taking the exception's
message (`str(error)`). -/
def is_transient_error (error_message : String) : Bool :=
  transient_error_indicators.any (fun ind => contains_substr (lower_str error_message) ind)

/-- `MultiAgentCoordinator._try_alternative_approach`: a placeholder that
always fails, with a distinct message on the complexity hook. -/
def try_alternative_approach (_agent_name error_message : String) : RecoveryResult :=
  if contains_substr (lower_str error_message) "complexity"
      || contains_substr (lower_str error_message) "too complex" then
    { success := false, strategy := "alternative_approach",
      message := "Alternative approach not yet implemented for this error type" }
  else
    { success := false, strategy := "alternative_approach",
      message := "No alternative approach available for this error type" }

/-- The `optional_agents` set of `MultiAgentCoordinator._can_skip_agent`. -/
def optional_agents : List String := ["CodeRefinementAgent", "TestingAgent"]

/-- The `critical_agents` set of `MultiAgentCoordinator._can_skip_agent`
(note: three names, unlike the abort policy's two). -/
def critical_agents_no_skip : List String :=
  ["ProjectPlanningAgent", "ModuleDesignAgent", "CodeImplementationAgent"]

/-- The `critical_agents` set of
`MultiAgentCoordinator._should_abort_workflow`. -/
def critical_agents : List String := ["ProjectPlanningAgent", "ModuleDesignAgent"]

/-- `MultiAgentCoordinator._can_skip_agent`: critical names are never
skipped, optional names are, unknown names conservatively are not. -/
def can_skip_agent (agent_name : String) : Bool :=
  if agent_name ∈ critical_agents_no_skip then false
  else if agent_name ∈ optional_agents then true
  else false

/-- `MultiAgentCoordinator._attempt_partial_rollback`.  With no active
workflow it fails.  With an active workflow it snapshots the current state
(`_create_rollback_point`, a non-empty dict), restores the same fields
from that snapshot (`_restore_to_rollback_point`, which raises only on an
empty snapshot and otherwise writes back the values just read, leaving the
state unchanged), and runs the documented no-op `_clear_agent_output`; it
then reports success. -/
def attempt_partial_rollback (has_active_workflow : Bool)
    (agent_name _error_message : String) : RecoveryResult :=
  if !has_active_workflow then
    { success := false, strategy := "rollback", message := "No active workflow to rollback" }
  else
    { success := true, strategy := "rollback",
      message := "Successfully rolled back to state before " ++ agent_name ++ " execution" }

/-- `MultiAgentCoordinator._attempt_recovery`: the ordered strategy chain
(transient / alternative / rollback / skip / user intervention). -/
def attempt_recovery (agent_name error_message : String)
    (has_active_workflow : Bool) : RecoveryResult :=
  if is_transient_error error_message then
    { success := true, strategy := "retry", message := "Transient error, retry will handle" }
  else
    let alternative_result := try_alternative_approach agent_name error_message
    if alternative_result.success then alternative_result
    else
      let rollback_result := attempt_partial_rollback has_active_workflow agent_name error_message
      if rollback_result.success then
        if !can_skip_agent agent_name then
          { success := false, strategy := "rollback_with_intervention",
            message := "Rollback succeeded but critical agent " ++ agent_name
              ++ " still requires user intervention",
            requires_user_intervention := true,
            error_details := some error_message }
        else rollback_result
      else
        if can_skip_agent agent_name then
          { success := true, strategy := "skip",
            message := "Skipped non-critical agent " ++ agent_name }
        else
          { success := false, strategy := "user_intervention",
            message := "All automated recovery strategies failed",
            requires_user_intervention := true,
            error_details := some error_message }

/-- The state mutation of `MultiAgentCoordinator._request_user_intervention`
on the active workflow (the persisted intervention-request record itself is
a data-store write, not workflow state). -/
def request_user_intervention (ws : WorkflowState)
    (agent_name error_message : String) : WorkflowState :=
  { ws with
      status := WorkflowStatus.failed,
      error_message := some ("User intervention required for agent " ++ agent_name
        ++ ": " ++ error_message) }

/-- `MultiAgentCoordinator.handle_agent_failure` acting on the active
workflow state: mark the agent failed, run the recovery chain (the active
workflow exists while `execute_workflow` runs), and escalate to a user
intervention request when recovery failed and asks for one. -/
def handle_agent_failure (ws : WorkflowState) (agent_name error_message : String) :
    WorkflowState :=
  let ws := mark_agent_failed ws agent_name error_message
  let recovery_result := attempt_recovery agent_name error_message true
  if !recovery_result.success && recovery_result.requires_user_intervention then
    request_user_intervention ws agent_name error_message
  else ws

/-! ## coordinator.py — workflow execution -/

/-- Result of workflow execution (`coordinator.WorkflowResult`); the
timing fields are omitted (claims never mention them). -/
structure WorkflowResult where
  workflow_id : String
  success : Bool
  error_message : Option String := none
  completed_agents : List String := []
  failed_agents : List String := []
deriving DecidableEq, Repr

/-- `WorkflowResult.add_completed_agent`. -/
def add_completed_agent (res : WorkflowResult) (agent_name : String) : WorkflowResult :=
  if agent_name ∈ res.completed_agents then res
  else { res with completed_agents := res.completed_agents ++ [agent_name] }

/-- `WorkflowResult.add_failed_agent`. -/
def add_failed_agent (res : WorkflowResult) (agent_name : String) : WorkflowResult :=
  if agent_name ∈ res.failed_agents then res
  else { res with failed_agents := res.failed_agents ++ [agent_name] }

/-- Abstraction of one agent's observable behavior: attempt `k` (0-based)
either succeeds (`none`) or raises an exception with the given message
(`some msg`).  This stands for the whole attempt body of
`_execute_agent_with_retry` (input fetch, `validate_input`, `execute`,
`format_output`, output store), any part of which fails by raising. -/
abbrev AgentBehavior := String → Nat → Option String

/-- The `while retry_count <= self.max_retries` loop of
`MultiAgentCoordinator._execute_agent_with_retry`.  `remaining` is
`max_retries + 1 - retry_count`, so the loop guard `retry_count ≤
max_retries` is exactly `remaining > 0` and the `0` case is unreachable
from `execute_agent_with_retry`.  Each iteration sets `current_agent`; on
an exception the incremented counter is compared against `max_retries`
and, once exhausted, `handle_agent_failure` runs and `False` is
returned. -/
def retry_loop (behavior : AgentBehavior) (max_retries : Nat) (agent_name : String) :
    Nat → Nat → WorkflowState → Bool × WorkflowState
  | 0, _, ws => (false, ws)
  | Nat.succ remaining, retry_count, ws =>
    let ws := { ws with current_agent := some agent_name }
    match behavior agent_name retry_count with
    | none => (true, ws)
    | some err =>
      if retry_count + 1 ≤ max_retries then
        retry_loop behavior max_retries agent_name remaining (retry_count + 1) ws
      else
        (false, handle_agent_failure ws agent_name err)

/-- `MultiAgentCoordinator._execute_agent_with_retry`. -/
def execute_agent_with_retry (behavior : AgentBehavior) (max_retries : Nat)
    (agent_name : String) (ws : WorkflowState) : Bool × WorkflowState :=
  retry_loop behavior max_retries agent_name (max_retries + 1) 0 ws

/-- `MultiAgentCoordinator._should_abort_workflow`: abort on a critical
agent, or when the failed fraction of all registered agents exceeds 50%
(the float comparison `failed_count / total_agents > 0.5` is embedded as
the exact rational comparison). -/
def should_abort_workflow (total_agents : Nat) (failed_agent : String)
    (ws : WorkflowState) : Bool :=
  if failed_agent ∈ critical_agents then true
  else if ((ws.failed_agents.length : Rat) / (total_agents : Rat)) > (0.5 : Rat) then true
  else false

/-- The `for agent_name in execution_order` loop of
`MultiAgentCoordinator.execute_workflow`.  The third component is `none`
for a normal traversal and `some msg` when the `AgentExecutionError`
raised on an abort decision unwinds the loop (after the per-agent handler
marks the failure once more and re-checks the abort condition, exactly as
the source's inner `except` block does). -/
def run_agents (total_agents : Nat) (behavior : AgentBehavior) (max_retries : Nat) :
    List String → WorkflowState → WorkflowResult →
    WorkflowState × WorkflowResult × Option String
  | [], ws, res => (ws, res, none)
  | agent_name :: rest, ws, res =>
    let step := execute_agent_with_retry behavior max_retries agent_name ws
    let ws := step.2
    if step.1 then
      let ws := mark_agent_completed ws agent_name
      let res := add_completed_agent res agent_name
      run_agents total_agents behavior max_retries rest { ws with current_agent := none } res
    else
      let ws := mark_agent_failed ws agent_name
        ("Agent " ++ agent_name ++ " failed after " ++ toString max_retries ++ " retries")
      let res := add_failed_agent res agent_name
      if should_abort_workflow total_agents agent_name ws then
        let msg := "Agent " ++ agent_name
          ++ " execution failed: Critical agent failure, aborting workflow"
        let ws := mark_agent_failed ws agent_name msg
        let res := add_failed_agent res agent_name
        if should_abort_workflow total_agents agent_name ws then
          (ws, res, some msg)
        else
          run_agents total_agents behavior max_retries rest { ws with current_agent := none } res
      else
        run_agents total_agents behavior max_retries rest { ws with current_agent := none } res

/-- The `WorkflowState` that `execute_workflow` creates before the loop
(status InProgress, start time recorded). -/
def initial_workflow_state (workflow_id : String) (t0 : Nat) : WorkflowState :=
  { workflow_id := workflow_id, status := WorkflowStatus.in_progress,
    start_time := some t0 }

/-- The `WorkflowResult` that `execute_workflow` creates up front
(success false until the loop finishes). -/
def initial_workflow_result (workflow_id : String) : WorkflowResult :=
  { workflow_id := workflow_id, success := false }

/-- `MultiAgentCoordinator.execute_workflow`.  `t0`/`t1` are the abstract
start and end clock readings.  Returns the `WorkflowResult` together with
the final persisted `WorkflowState` (`none` when failure struck before the
state was created, mirroring `self._current_workflow is None`). -/
def execute_workflow (reg : AgentRegistry) (behavior : AgentBehavior)
    (max_retries : Nat) (workflow_id : String) (t0 t1 : Nat) :
    WorkflowResult × Option WorkflowState :=
  let res : WorkflowResult := initial_workflow_result workflow_id
  if (list_agents reg).isEmpty then
    ({ res with error_message := some "No agents registered for workflow execution" }, none)
  else
    match validate_dependencies reg with
    | Except.error e => ({ res with error_message := some e }, none)
    | Except.ok _ =>
      match get_execution_order reg with
      | Except.error e => ({ res with error_message := some e }, none)
      | Except.ok execution_order =>
        let ws : WorkflowState := initial_workflow_state workflow_id t0
        match run_agents (list_agents reg).length behavior max_retries execution_order ws res with
        | (ws, res, none) =>
          ({ res with success := true },
            some { ws with status := WorkflowStatus.completed, end_time := some t1 })
        | (ws, res, some msg) =>
          ({ res with error_message := some msg },
            some { ws with status := WorkflowStatus.failed
                           error_message := some msg
                           end_time := some t1 })

/-- `MultiAgentCoordinator.cancel_workflow` acting on the active workflow
state: set status Cancelled and record an end timestamp. -/
def cancel_workflow (ws : WorkflowState) (t : Nat) : WorkflowState :=
  { ws with status := WorkflowStatus.cancelled, end_time := some t }

/-- A workflow run during which `cancel_workflow` is invoked from another
thread at the boundary after the first `k` agents of the execution order
(the only interleaving points, since each loop iteration runs atomically
on the coordinator thread).  The remainder of the loop and the completion
epilogue are exactly those of `execute_workflow`, which performs no
cancellation check. -/
def execute_workflow_with_cancel_at (reg : AgentRegistry) (behavior : AgentBehavior)
    (max_retries : Nat) (workflow_id : String) (t0 tc t1 : Nat) (k : Nat) :
    WorkflowResult × Option WorkflowState :=
  let res : WorkflowResult := initial_workflow_result workflow_id
  if (list_agents reg).isEmpty then
    ({ res with error_message := some "No agents registered for workflow execution" }, none)
  else
    match validate_dependencies reg with
    | Except.error e => ({ res with error_message := some e }, none)
    | Except.ok _ =>
      match get_execution_order reg with
      | Except.error e => ({ res with error_message := some e }, none)
      | Except.ok execution_order =>
        let ws : WorkflowState := initial_workflow_state workflow_id t0
        let total := (list_agents reg).length
        match run_agents total behavior max_retries (execution_order.take k) ws res with
        | (ws, res, some msg) =>
          ({ res with error_message := some msg },
            some { ws with status := WorkflowStatus.failed
                           error_message := some msg
                           end_time := some t1 })
        | (ws, res, none) =>
          let ws := cancel_workflow ws tc
          match run_agents total behavior max_retries (execution_order.drop k) ws res with
          | (ws, res, none) =>
            ({ res with success := true },
              some { ws with status := WorkflowStatus.completed, end_time := some t1 })
          | (ws, res, some msg) =>
            ({ res with error_message := some msg },
              some { ws with status := WorkflowStatus.failed
                             error_message := some msg
                             end_time := some t1 })

/-! ## data_store.py — SharedDataStore

Agent output payloads are JSON-like dictionaries; pydantic model
construction (`ProjectPlan(**data)` etc.) is embedded as a parse function
returning `none` exactly when construction would raise a validation
error.  Model fields that the store logic never examines (nested test-case
lists, timestamps, free-form metadata sub-structures) are omitted from the
embedded records; the fields that drive the store's merge policy
(`module_name` keys, required scalar fields and their validators) are
kept. -/

/-- JSON-like value, the element type of the `Dict[str, Any]` payloads. -/
inductive JValue where
  | s : String → JValue
  | n : Int → JValue
  | b : Bool → JValue
  | arr : List JValue → JValue
  | obj : List (String × JValue) → JValue

/-- A `Dict[str, Any]` payload. -/
abbrev JDict := List (String × JValue)

/-- Dictionary field access used by pydantic construction. -/
def jlookup (data : JDict) (key : String) : Option JValue :=
  (data.find? (fun p => p.1 == key)).map Prod.snd

/-- `models.TechnologyStack` (required fields). -/
structure TechnologyStack where
  primary_language : String
  justification : String
deriving DecidableEq, Repr

/-- `models.ProjectPlan` (required fields and their validators). -/
structure ProjectPlan where
  project_name : String
  description : String
  project_type : String
  technology_stack : TechnologyStack
  estimated_timeline_days : Int
deriving DecidableEq, Repr

/-- `models.ModuleStructure` (every field has a default; only the scalar
kept here). -/
structure ModuleStructure where
  architecture_pattern : String := ""
deriving DecidableEq, Repr

/-- `models.UnitTestPlan` (alias `TestingPlan`/`TestPlan`); its only
required field is `module_name`, the merge key. -/
structure TestingPlan where
  module_name : String
deriving DecidableEq, Repr

/-- `models.CodeArtifact` (required fields; `file_path` has a
non-blank validator that strips whitespace). -/
structure CodeArtifact where
  file_path : String
  content : String
  language : String
  module_name : String
deriving DecidableEq, Repr

/-- `models.UnitTestStatus`. -/
inductive UnitTestStatus where
  | passed
  | failed
  | error
  | skipped
deriving DecidableEq, Repr

/-- `models.UnitTestResult` (alias `TestingResult`; required fields). -/
structure TestingResult where
  test_name : String
  status : UnitTestStatus
  module_name : String
deriving DecidableEq, Repr

/-- `TechnologyStack(**data)`: both required fields must be strings. -/
def parse_technology_stack (data : JDict) : Option TechnologyStack :=
  match jlookup data "primary_language", jlookup data "justification" with
  | some (JValue.s pl), some (JValue.s j) => some { primary_language := pl, justification := j }
  | _, _ => none

/-- `ProjectPlan(**data)`: required fields present and well-typed, the
`project_name` validator (non-blank after strip, stored stripped) and the
`estimated_timeline_days` validator (positive). -/
def parse_project_plan (data : JDict) : Option ProjectPlan :=
  match jlookup data "project_name", jlookup data "description",
      jlookup data "project_type", jlookup data "technology_stack",
      jlookup data "estimated_timeline_days" with
  | some (JValue.s name), some (JValue.s desc), some (JValue.s ptype),
      some (JValue.obj ts), some (JValue.n days) =>
    match parse_technology_stack ts with
    | some stack =>
      if trim_str name = "" then none
      else if days ≤ 0 then none
      else some { project_name := trim_str name, description := desc, project_type := ptype,
                  technology_stack := stack, estimated_timeline_days := days }
    | none => none
  | _, _, _, _, _ => none

/-- `ModuleStructure(**data)`: all fields default; the embedded scalar must
be a string when present. -/
def parse_module_structure (data : JDict) : Option ModuleStructure :=
  match jlookup data "architecture_pattern" with
  | none => some { architecture_pattern := "" }
  | some (JValue.s v) => some { architecture_pattern := v }
  | some _ => none

/-- `TestingPlan(**data)`: the required `module_name` must be a string. -/
def parse_testing_plan (data : JDict) : Option TestingPlan :=
  match jlookup data "module_name" with
  | some (JValue.s v) => some { module_name := v }
  | _ => none

/-- `CodeArtifact(**data)`: required fields plus the `file_path`
validator. -/
def parse_code_artifact (data : JDict) : Option CodeArtifact :=
  match jlookup data "file_path", jlookup data "content",
      jlookup data "language", jlookup data "module_name" with
  | some (JValue.s fp), some (JValue.s c), some (JValue.s lang), some (JValue.s m) =>
    if trim_str fp = "" then none
    else some { file_path := trim_str fp, content := c, language := lang, module_name := m }
  | _, _, _, _ => none

/-- String-to-enum coercion for `UnitTestStatus`. -/
def parse_status (v : String) : Option UnitTestStatus :=
  if v = "passed" then some UnitTestStatus.passed
  else if v = "failed" then some UnitTestStatus.failed
  else if v = "error" then some UnitTestStatus.error
  else if v = "skipped" then some UnitTestStatus.skipped
  else none

/-- `TestingResult(**data)`: required fields, enum-typed status. -/
def parse_testing_result (data : JDict) : Option TestingResult :=
  match jlookup data "test_name", jlookup data "status", jlookup data "module_name" with
  | some (JValue.s tn), some (JValue.s st), some (JValue.s m) =>
    match parse_status st with
    | some status => some { test_name := tn, status := status, module_name := m }
    | none => none
  | _, _, _ => none

/-- `models.ProjectContext` content fields (the nested `workflow_state`
reference is modelled separately, see the heap model below; timestamps
omitted). -/
structure ProjectContext where
  project_plan : Option ProjectPlan := none
  module_structure : Option ModuleStructure := none
  test_plans : List TestingPlan := []
  code_artifacts : List CodeArtifact := []
  test_results : List TestingResult := []
deriving DecidableEq, Repr

/-- The replace-by-key step of `_update_project_context` for test plans:
overwrite the first entry with the same `module_name`, else append
(the source finds the first matching index and assigns to it). -/
def replace_test_plan : List TestingPlan → TestingPlan → List TestingPlan
  | [], tp => [tp]
  | hd :: tl, tp =>
    if hd.module_name == tp.module_name then tp :: tl
    else hd :: replace_test_plan tl tp

/-- The replace-by-key step of `_update_project_context` for code
artifacts. -/
def replace_code_artifact : List CodeArtifact → CodeArtifact → List CodeArtifact
  | [], ca => [ca]
  | hd :: tl, ca =>
    if hd.module_name == ca.module_name then ca :: tl
    else hd :: replace_code_artifact tl ca

/-- `SharedDataStore._update_project_context`: dispatch on the output
type; a pydantic validation error inside the `try` block is caught and
logged, leaving the context unchanged.  (`data` is a dict here, so the
`isinstance(data, list)` branch of the `test_results` case is the
single-record one.)  Unknown output types change nothing. -/
def update_project_context (ctx : ProjectContext) (output_type : String)
    (data : JDict) : ProjectContext :=
  if output_type == "project_plan" then
    match parse_project_plan data with
    | some pp => { ctx with project_plan := some pp }
    | none => ctx
  else if output_type == "module_structure" then
    match parse_module_structure data with
    | some ms => { ctx with module_structure := some ms }
    | none => ctx
  else if output_type == "test_plan" then
    match parse_testing_plan data with
    | some tp => { ctx with test_plans := replace_test_plan ctx.test_plans tp }
    | none => ctx
  else if output_type == "code_artifact" then
    match parse_code_artifact data with
    | some ca => { ctx with code_artifacts := replace_code_artifact ctx.code_artifacts ca }
    | none => ctx
  else if output_type == "test_results" then
    match parse_testing_result data with
    | some tr => { ctx with test_results := ctx.test_results ++ [tr] }
    | none => ctx
  else ctx

/-- `models.AgentOutput` (timestamp omitted). -/
structure AgentOutput where
  agent_name : String
  output_type : String
  data : JDict
  metadata : JDict

/-- `AgentOutput(...)` construction: the `agent_name` validator rejects a
blank name and stores it stripped. -/
def mk_agent_output (agent_name output_type : String) (data metadata : JDict) :
    Except String AgentOutput :=
  if trim_str agent_name = "" then Except.error "Agent name cannot be empty"
  else Except.ok { agent_name := trim_str agent_name, output_type := output_type,
                   data := data, metadata := metadata }

/-- One `_log_operation` record of the workflow history (timestamp
omitted). -/
structure LogEntry where
  operation : String
  agent_name : String
  output_type : String
deriving DecidableEq, Repr

/-- `SharedDataStore` in-memory state: project context, per-agent output
lists (a dict in insertion order), operation history. -/
structure SharedDataStore where
  project_context : ProjectContext := {}
  agent_outputs : List (String × List AgentOutput) := []
  workflow_history : List LogEntry := []

/-- The `self._agent_outputs[agent_name].append(output)` dict update
(creating the key when absent, as the source does). -/
def append_agent_output : List (String × List AgentOutput) → String → AgentOutput →
    List (String × List AgentOutput)
  | [], name, o => [(name, [o])]
  | (k, l) :: rest, name, o =>
    if k == name then (k, l ++ [o]) :: rest
    else (k, l) :: append_agent_output rest name o

/-- `SharedDataStore.store_agent_output`: construct the `AgentOutput`
(whose own validation error propagates, since it happens before any
mutation), append it to the agent's output list, synchronously update the
project context (validation failures inside are swallowed), and append a
history record.  Disk persistence is best-effort and not modelled. -/
def store_agent_output (store : SharedDataStore) (agent_name output_type : String)
    (data : JDict) (metadata : JDict := []) : Except String SharedDataStore :=
  match mk_agent_output agent_name output_type data metadata with
  | Except.error e => Except.error e
  | Except.ok output =>
    Except.ok
      { project_context := update_project_context store.project_context output_type data,
        agent_outputs := append_agent_output store.agent_outputs agent_name output,
        workflow_history := store.workflow_history
          ++ [{ operation := "store_output", agent_name := agent_name,
                output_type := output_type }] }

/-- `SharedDataStore.get_agent_output`: all records of an agent, optionally
filtered by type; an unknown agent yields `[]`. -/
def get_agent_output (store : SharedDataStore) (agent_name : String)
    (output_type : Option String := none) : List AgentOutput :=
  match store.agent_outputs.find? (fun p => p.1 == agent_name) with
  | none => []
  | some p =>
    match output_type with
    | none => p.2
    | some t => p.2.filter (fun o => o.output_type == t)

/-- One client call to `store_agent_output`. -/
structure StoreOp where
  agent_name : String
  output_type : String
  data : JDict
  metadata : JDict := []

/-- A sequence of `store_agent_output` calls by a caller that survives
raised validation errors (a raised `AgentOutput` validation error leaves
the store untouched, since it precedes every mutation). -/
def run_store_ops : SharedDataStore → List StoreOp → SharedDataStore
  | store, [] => store
  | store, op :: rest =>
    match store_agent_output store op.agent_name op.output_type op.data op.metadata with
    | Except.ok store2 => run_store_ops store2 rest
    | Except.error _ => run_store_ops store rest

/-- Recognized output types of `_update_project_context` (the types with a
dispatch branch). -/
def recognized_output_types : List String :=
  ["project_plan", "module_structure", "test_plan", "code_artifact", "test_results"]

/-- The payload fails the pydantic validation of the model associated to
the given recognized output type (claim-side predicate over the embedded
parsers). -/
def content_parse_fails (output_type : String) (data : JDict) : Prop :=
  (output_type = "project_plan" → parse_project_plan data = none)
  ∧ (output_type = "module_structure" → parse_module_structure data = none)
  ∧ (output_type = "test_plan" → parse_testing_plan data = none)
  ∧ (output_type = "code_artifact" → parse_code_artifact data = none)
  ∧ (output_type = "test_results" → parse_testing_result data = none)

/-! ## data_store.py — object identity of the workflow-state accessors

Python returns object references; `get_workflow_state` returns
`self._project_context.workflow_state` itself while `get_project_context`
returns `self._project_context.model_copy(deep=True)`.  To express the
difference, `WorkflowState` objects live in a heap of cells and the store
holds a cell reference. -/

/-- Heap of `WorkflowState` objects; a reference is an index. -/
structure WSHeap where
  cells : List WorkflowState

/-- The reference-valued part of the store: the
`ProjectContext.workflow_state` field as an object reference. -/
structure DataStoreRefs where
  workflow_ref : Option Nat

/-- In-place mutation of the object behind reference `r` (what a caller
does to a returned object, e.g. appending to one of its lists). -/
def write_cell (h : WSHeap) (r : Nat) (ws : WorkflowState) : WSHeap :=
  { cells := h.cells.set r ws }

/-- The workflow state the store itself observes through its stored
reference. -/
def stored_workflow_state (h : WSHeap) (s : DataStoreRefs) : Option WorkflowState :=
  s.workflow_ref.bind (fun r => h.cells[r]?)

/-- `SharedDataStore.update_workflow_state`: assigns the caller's object
reference (`self._project_context.workflow_state = workflow_state`, no
copy). -/
def update_workflow_state_ref (_s : DataStoreRefs) (r : Nat) : DataStoreRefs :=
  { workflow_ref := some r }

/-- `SharedDataStore.get_workflow_state`: returns
`self._project_context.workflow_state` — the stored reference itself,
without any copy. -/
def get_workflow_state_ref (s : DataStoreRefs) : Option Nat :=
  s.workflow_ref

/-- Fallback object for reading an out-of-range reference (never reached
under the theorems' validity hypotheses). -/
def default_workflow_state : WorkflowState :=
  { workflow_id := "" }

/-- `SharedDataStore.get_project_context`: `model_copy(deep=True)`
allocates a fresh object for every nested object; for the
`workflow_state` component this appends a fresh cell holding an equal
value and hands out the fresh reference. -/
def get_project_context_copy (h : WSHeap) (s : DataStoreRefs) : WSHeap × Option Nat :=
  match s.workflow_ref with
  | none => (h, none)
  | some r => ({ cells := h.cells ++ [(h.cells[r]?).getD default_workflow_state] },
      some h.cells.length)

/-! ## Concrete inputs used by witnesses and counterexamples -/

/-- The cyclic registry of the claim: A depends on C, C on B, B on A. -/
def reg_cycle : AgentRegistry := [("A", ["C"]), ("B", ["A"]), ("C", ["B"])]

/-- A small acyclic registry. -/
def reg_ab : AgentRegistry := [("A", []), ("B", ["A"])]

/-- A registry whose two agents are independent. -/
def reg_pair : AgentRegistry := [("A", []), ("B", [])]

/-- A registry containing the first pipeline stage. -/
def reg_planning : AgentRegistry := [("ProjectPlanningAgent", [])]

/-- A fresh workflow state. -/
def ws_fresh : WorkflowState :=
  { workflow_id := "w", status := WorkflowStatus.in_progress }

/-- A behavior whose every attempt succeeds. -/
def behavior_all_ok : AgentBehavior := fun _ _ => none

/-- A behavior whose every attempt raises. -/
def behavior_all_fail : AgentBehavior := fun _ _ => some "boom"

/-- A behavior where agent "B" raises on attempts 0 and 1 and succeeds
from attempt 2 on, while every other agent succeeds at once. -/
def behavior_b_flaky : AgentBehavior := fun a k =>
  if a = "B" && k < 2 then some "flaky failure" else none

/-- A one-cell heap whose single object is the store's workflow state. -/
def heap_one : WSHeap := { cells := [ws_fresh] }

/-- Store references pointing at cell 0 of `heap_one`. -/
def refs_zero : DataStoreRefs := { workflow_ref := some 0 }

/-- The object a client writes through the reference returned by
`get_workflow_state`. -/
def ws_mutated : WorkflowState :=
  { ws_fresh with error_message := some "mutated by caller" }

/-- A payload that parses as a test plan for module "m". -/
def data_tp_m : JDict := [("module_name", JValue.s "m")]

/-- A second, distinct payload for module "m" (extra key ignored by the
required-field parse). -/
def data_tp_m2 : JDict := [("module_name", JValue.s "m"), ("v", JValue.n 2)]

/-- A payload that fails test-plan validation (no `module_name`). -/
def data_bad : JDict := [("x", JValue.n 1)]

/-! # Theorems -/

/-! ## C7 — cycle detection -/

/-- C7: the registry with the dependency cycle A→C→B→A makes
`get_execution_order` raise `CircularDependencyError` naming an offending
agent, and no partial execution order is returned. -/
theorem C7_cycle_detection :
    get_execution_order reg_cycle
      = Except.error "Circular dependency detected involving agent A"
    ∧ ∀ l, ¬ get_execution_order reg_cycle = Except.ok l := by
  refine ⟨rfl, fun l h => ?_⟩
  rw [show get_execution_order reg_cycle
    = Except.error "Circular dependency detected involving agent A" from rfl] at h
  exact Except.noConfusion h

/-! ## C2 — completed/failed bookkeeping of WorkflowState -/

/-- C2 (counterexample): after `mark_agent_completed "a"` followed by
`mark_agent_failed "a"`, the name is in both sets — `mark_agent_failed`
does not remove the agent from `completed_agents`, so the claimed
"at most one of the two sets" invariant fails. -/
theorem C2_counterexample :
    "a" ∈ (mark_agent_failed (mark_agent_completed ws_fresh "a") "a" "e").completed_agents
    ∧ "a" ∈ (mark_agent_failed (mark_agent_completed ws_fresh "a") "a" "e").failed_agents := by
  decide

/-- C2 (amended): `mark_agent_completed` removes the name from the failed
set (whose entries are unique in any state these operations produce) and
records it completed; both operations are idempotent; but
`mark_agent_failed` leaves `completed_agents` untouched, so it does not
restore the one-sided invariant. -/
theorem C2_mark_agent_bookkeeping (s : WorkflowState) (a msg : String)
    (hnd : s.failed_agents.Nodup) :
    a ∉ (mark_agent_completed s a).failed_agents
    ∧ a ∈ (mark_agent_completed s a).completed_agents
    ∧ (mark_agent_failed s a msg).completed_agents = s.completed_agents
    ∧ a ∈ (mark_agent_failed s a msg).failed_agents
    ∧ mark_agent_completed (mark_agent_completed s a) a = mark_agent_completed s a
    ∧ mark_agent_failed (mark_agent_failed s a msg) a msg = mark_agent_failed s a msg := by
  have herase2 : (s.failed_agents.erase a).erase a = s.failed_agents.erase a :=
    List.erase_of_not_mem hnd.not_mem_erase
  refine ⟨hnd.not_mem_erase, ?_, rfl, ?_, ?_, ?_⟩
  · by_cases h : a ∈ s.completed_agents <;> simp [mark_agent_completed, h]
  · by_cases h : a ∈ s.failed_agents <;> simp [mark_agent_failed, h]
  · by_cases h : a ∈ s.completed_agents <;>
      simp [mark_agent_completed, h, herase2]
  · by_cases h : a ∈ s.failed_agents <;> simp [mark_agent_failed, h]

/-- C2 (witness). -/
theorem C2_mark_agent_bookkeeping_witness :
    ([] : List String).Nodup
    ∧ ("a" ∉ (mark_agent_completed ws_fresh "a").failed_agents
      ∧ "a" ∈ (mark_agent_completed ws_fresh "a").completed_agents
      ∧ (mark_agent_failed ws_fresh "a" "e").completed_agents = ws_fresh.completed_agents
      ∧ "a" ∈ (mark_agent_failed ws_fresh "a" "e").failed_agents
      ∧ mark_agent_completed (mark_agent_completed ws_fresh "a") "a"
          = mark_agent_completed ws_fresh "a"
      ∧ mark_agent_failed (mark_agent_failed ws_fresh "a" "e") "a" "e"
          = mark_agent_failed ws_fresh "a" "e") :=
  ⟨List.nodup_nil, C2_mark_agent_bookkeeping ws_fresh "a" "e" List.nodup_nil⟩

/-! ## C5 — recovery outcome after a successful rollback -/

/-- C5 (counterexample): "CodeImplementationAgent" is not in the claim's
critical set (`_should_abort_workflow`'s two names), yet a
non-transient, non-complexity failure with an active workflow yields the
failing "rollback_with_intervention" outcome, not the claimed success with
strategy "rollback".  The decisive test in the source is
`_can_skip_agent`, not critical-set membership. -/
theorem C5_counterexample :
    "CodeImplementationAgent" ∉ critical_agents
    ∧ is_transient_error "boom" = false
    ∧ contains_substr (lower_str "boom") "complexity" = false
    ∧ contains_substr (lower_str "boom") "too complex" = false
    ∧ (attempt_recovery "CodeImplementationAgent" "boom" true).success = false
    ∧ (attempt_recovery "CodeImplementationAgent" "boom" true).strategy
        = "rollback_with_intervention"
    ∧ (attempt_recovery "CodeImplementationAgent" "boom" true).requires_user_intervention
        = true := by
  decide

/-- C5 (amended): for a failure whose error text is neither transient nor
matches the complexity hook, with an active workflow, `_attempt_recovery`
returns success with strategy "rollback" exactly for the skippable agents
(`_can_skip_agent` true: the optional set), and for every other agent —
the three-name no-skip critical set as well as unknown names — it returns
failure with strategy "rollback_with_intervention" and
`requires_user_intervention`. -/
theorem C5_recovery_after_rollback (agent err : String)
    (ht : is_transient_error err = false)
    (hc1 : contains_substr (lower_str err) "complexity" = false)
    (hc2 : contains_substr (lower_str err) "too complex" = false) :
    (can_skip_agent agent = true →
      attempt_recovery agent err true
        = { success := true, strategy := "rollback",
            message := "Successfully rolled back to state before " ++ agent ++ " execution" })
    ∧ (can_skip_agent agent = false →
      attempt_recovery agent err true
        = { success := false, strategy := "rollback_with_intervention",
            message := "Rollback succeeded but critical agent " ++ agent
              ++ " still requires user intervention",
            requires_user_intervention := true,
            error_details := some err }) := by
  constructor <;> intro hskip <;>
    simp [attempt_recovery, try_alternative_approach, attempt_partial_rollback,
      ht, hc1, hc2, hskip]

/-- C5 (witness): one skippable and one non-skippable instantiation. -/
theorem C5_recovery_after_rollback_witness :
    is_transient_error "boom" = false
    ∧ can_skip_agent "TestingAgent" = true
    ∧ can_skip_agent "CodeImplementationAgent" = false
    ∧ attempt_recovery "TestingAgent" "boom" true
        = { success := true, strategy := "rollback",
            message := "Successfully rolled back to state before TestingAgent execution" }
    ∧ attempt_recovery "CodeImplementationAgent" "boom" true
        = { success := false, strategy := "rollback_with_intervention",
            message := "Rollback succeeded but critical agent CodeImplementationAgent"
              ++ " still requires user intervention",
            requires_user_intervention := true,
            error_details := some "boom" } :=
  ⟨by decide, by decide, by decide,
    (C5_recovery_after_rollback "TestingAgent" "boom"
      (by decide) (by decide) (by decide)).1 (by decide),
    (C5_recovery_after_rollback "CodeImplementationAgent" "boom"
      (by decide) (by decide) (by decide)).2 (by decide)⟩

/-! ## C9 — copy semantics of the accessors -/

/-- C9 (counterexample): `get_workflow_state` hands out the stored
reference itself; writing through that reference changes the workflow
state the store observes, so the accessor does not return a deep copy. -/
theorem C9_counterexample :
    get_workflow_state_ref refs_zero = some 0
    ∧ stored_workflow_state heap_one refs_zero = some ws_fresh
    ∧ stored_workflow_state (write_cell heap_one 0 ws_mutated) refs_zero = some ws_mutated
    ∧ ws_mutated ≠ ws_fresh := by
  decide

/-- C9 (amended): `get_project_context` returns a deep copy — mutating the
fresh object it allocates leaves the store's workflow state unchanged —
while `get_workflow_state` returns the stored object itself, so mutating
its result is visible through the store. -/
theorem C9_accessor_copy_semantics (h : WSHeap) (s : DataStoreRefs) (r : Nat)
    (w : WorkflowState) (hr : s.workflow_ref = some r) (hlt : r < h.cells.length) :
    (get_project_context_copy h s).2 = some h.cells.length
    ∧ stored_workflow_state (write_cell (get_project_context_copy h s).1 h.cells.length w) s
        = stored_workflow_state h s
    ∧ get_workflow_state_ref s = some r
    ∧ stored_workflow_state (write_cell h r w) s = some w := by
  refine ⟨by simp [get_project_context_copy, hr], ?_, by simp [get_workflow_state_ref, hr], ?_⟩
  · have hset : (h.cells ++ [(h.cells[r]?).getD default_workflow_state]).set h.cells.length w
        = h.cells ++ [w] := by
      rw [List.set_append_right _ _ (Nat.le_refl _)]
      simp
    simp only [get_project_context_copy, hr, write_cell, stored_workflow_state,
      Option.bind_eq_bind, Option.some_bind, hset]
    rw [List.getElem?_append]
    simp [hlt]
  · simp only [stored_workflow_state, write_cell, hr, Option.bind_eq_bind, Option.some_bind]
    simp [List.getElem?_set_self', hlt]

/-- C9 (witness). -/
theorem C9_accessor_copy_semantics_witness :
    refs_zero.workflow_ref = some 0
    ∧ 0 < heap_one.cells.length
    ∧ ((get_project_context_copy heap_one refs_zero).2 = some heap_one.cells.length
      ∧ stored_workflow_state
          (write_cell (get_project_context_copy heap_one refs_zero).1 heap_one.cells.length
            ws_mutated) refs_zero
          = stored_workflow_state heap_one refs_zero
      ∧ get_workflow_state_ref refs_zero = some 0
      ∧ stored_workflow_state (write_cell heap_one 0 ws_mutated) refs_zero = some ws_mutated) :=
  ⟨rfl, by decide,
    C9_accessor_copy_semantics heap_one refs_zero 0 ws_mutated rfl (by decide)⟩

/-! ## C8 / C10 — the store's merge policy and validation-failure behavior -/

theorem mem_replace_test_plan {l : List TestingPlan} {tp x : TestingPlan}
    (h : x ∈ replace_test_plan l tp) : x ∈ l ∨ x = tp := by
  induction l with
  | nil =>
    simp [replace_test_plan] at h
    exact Or.inr h
  | cons hd tl ih =>
    by_cases hq : hd.module_name == tp.module_name
    · simp [replace_test_plan, hq] at h
      rcases h with h | h
      · exact Or.inr h
      · exact Or.inl (List.mem_cons_of_mem _ h)
    · simp [replace_test_plan, hq] at h
      rcases h with h | h
      · exact Or.inl (h ▸ List.mem_cons_self _ _)
      · rcases ih h with h2 | h2
        · exact Or.inl (List.mem_cons_of_mem _ h2)
        · exact Or.inr h2

theorem self_mem_replace_test_plan (l : List TestingPlan) (tp : TestingPlan) :
    tp ∈ replace_test_plan l tp := by
  induction l with
  | nil => simp [replace_test_plan]
  | cons hd tl ih =>
    by_cases hq : hd.module_name == tp.module_name <;>
      simp [replace_test_plan, hq, ih]

theorem replace_test_plan_pairwise {l : List TestingPlan} {tp : TestingPlan}
    (h : l.Pairwise (fun u v => u.module_name ≠ v.module_name)) :
    (replace_test_plan l tp).Pairwise (fun u v => u.module_name ≠ v.module_name) := by
  induction l with
  | nil => simp [replace_test_plan]
  | cons hd tl ih =>
    rcases List.pairwise_cons.mp h with ⟨hhd, htl⟩
    by_cases hq : hd.module_name == tp.module_name
    · have heq : hd.module_name = tp.module_name := by simpa using hq
      simp only [replace_test_plan, hq, if_true]
      exact List.pairwise_cons.mpr ⟨fun x hx => heq ▸ hhd x hx, htl⟩
    · have hne : hd.module_name ≠ tp.module_name := by simpa using hq
      simp only [replace_test_plan, hq, if_false, Bool.false_eq_true]
      refine List.pairwise_cons.mpr ⟨?_, ih htl⟩
      intro x hx
      rcases mem_replace_test_plan hx with h2 | h2
      · exact hhd x h2
      · exact h2 ▸ hne

theorem replace_test_plan_length {l : List TestingPlan} {tp : TestingPlan}
    (h : ∃ x ∈ l, x.module_name = tp.module_name) :
    (replace_test_plan l tp).length = l.length := by
  induction l with
  | nil => simp at h
  | cons hd tl ih =>
    by_cases hq : hd.module_name == tp.module_name
    · simp [replace_test_plan, hq]
    · have hne : hd.module_name ≠ tp.module_name := by simpa using hq
      simp only [replace_test_plan, hq, if_false, Bool.false_eq_true, List.length_cons]
      rcases h with ⟨x, hx, hmod⟩
      rcases List.mem_cons.mp hx with rfl | hx2
      · exact absurd hmod hne
      · rw [ih ⟨x, hx2, hmod⟩]

theorem replace_test_plan_filter {l : List TestingPlan} {tp : TestingPlan}
    (h : l.Pairwise (fun u v => u.module_name ≠ v.module_name)) :
    (replace_test_plan l tp).filter (fun u => u.module_name == tp.module_name) = [tp] := by
  induction l with
  | nil => simp [replace_test_plan, List.filter]
  | cons hd tl ih =>
    rcases List.pairwise_cons.mp h with ⟨hhd, htl⟩
    by_cases hq : hd.module_name == tp.module_name
    · have heq : hd.module_name = tp.module_name := by simpa using hq
      simp only [replace_test_plan, hq, if_true]
      rw [List.filter_cons_of_pos (by simp)]
      have : tl.filter (fun u => u.module_name == tp.module_name) = [] := by
        rw [List.filter_eq_nil_iff]
        intro x hx
        simp only [beq_iff_eq]
        exact fun hxx => (heq ▸ hhd x hx) hxx.symm
      rw [this]
    · simp only [replace_test_plan, hq, if_false, Bool.false_eq_true]
      rw [List.filter_cons_of_neg (by simpa using hq)]
      exact ih htl

theorem update_project_context_pairwise {ctx : ProjectContext} {ot : String} {d : JDict}
    (h : ctx.test_plans.Pairwise (fun u v => u.module_name ≠ v.module_name)) :
    ((update_project_context ctx ot d).test_plans).Pairwise
      (fun u v => u.module_name ≠ v.module_name) := by
  unfold update_project_context
  split_ifs
  · cases hp : parse_project_plan d <;> simp [hp, h]
  · cases hp : parse_module_structure d <;> simp [hp, h]
  · cases hp : parse_testing_plan d
    · simp [hp, h]
    · simp only [hp]
      exact replace_test_plan_pairwise h
  · cases hp : parse_code_artifact d <;> simp [hp, h]
  · cases hp : parse_testing_result d <;> simp [hp, h]
  · exact h

theorem store_agent_output_context {store store2 : SharedDataStore}
    {an ot : String} {d md : JDict}
    (h : store_agent_output store an ot d md = Except.ok store2) :
    store2.project_context = update_project_context store.project_context ot d := by
  unfold store_agent_output at h
  unfold mk_agent_output at h
  by_cases ht : trim_str an = ""
  · simp [ht] at h
  · simp [ht] at h
    rw [← h]

theorem run_store_ops_pairwise (ops : List StoreOp) :
    ∀ store : SharedDataStore,
      store.project_context.test_plans.Pairwise (fun u v => u.module_name ≠ v.module_name) →
      ((run_store_ops store ops).project_context.test_plans).Pairwise
        (fun u v => u.module_name ≠ v.module_name) := by
  induction ops with
  | nil => intro store h; exact h
  | cons op rest ih =>
    intro store h
    unfold run_store_ops
    cases hs : store_agent_output store op.agent_name op.output_type op.data op.metadata with
    | ok store2 =>
      apply ih
      rw [store_agent_output_context hs]
      exact update_project_context_pairwise h
    | error e => exact ih store h

/-- C8: after any sequence of `store_agent_output` calls on a fresh store
the derived context's test-plan list has at most one entry per module
name, and a second validated `test_plan` payload for the same module
replaces the prior entry (the filtered list for that module is exactly the
new plan, and the list does not grow). -/
theorem C8_test_plan_replace_by_key :
    (∀ ops : List StoreOp,
      ((run_store_ops {} ops).project_context.test_plans).Pairwise
        (fun u v => u.module_name ≠ v.module_name))
    ∧ (∀ (ctx : ProjectContext) (d1 d2 : JDict) (tp1 tp2 : TestingPlan),
      parse_testing_plan d1 = some tp1 →
      parse_testing_plan d2 = some tp2 →
      tp1.module_name = tp2.module_name →
      ctx.test_plans.Pairwise (fun u v => u.module_name ≠ v.module_name) →
      (((update_project_context (update_project_context ctx "test_plan" d1) "test_plan" d2
          ).test_plans).filter (fun u => u.module_name == tp2.module_name) = [tp2]
        ∧ ((update_project_context (update_project_context ctx "test_plan" d1) "test_plan" d2
          ).test_plans).length
            = ((update_project_context ctx "test_plan" d1).test_plans).length)) := by
  constructor
  · intro ops
    exact run_store_ops_pairwise ops {} (by simp)
  · intro ctx d1 d2 tp1 tp2 h1 h2 hmod hpw
    have e1 : (update_project_context ctx "test_plan" d1).test_plans
        = replace_test_plan ctx.test_plans tp1 := by
      simp [update_project_context, h1]
    have e2 : (update_project_context (update_project_context ctx "test_plan" d1)
        "test_plan" d2).test_plans
        = replace_test_plan (replace_test_plan ctx.test_plans tp1) tp2 := by
      simp [update_project_context, h1, h2]
    have hpw1 : (replace_test_plan ctx.test_plans tp1).Pairwise
        (fun u v => u.module_name ≠ v.module_name) := replace_test_plan_pairwise hpw
    constructor
    · rw [e2]
      exact replace_test_plan_filter hpw1
    · rw [e2, e1]
      exact replace_test_plan_length ⟨tp1, self_mem_replace_test_plan _ _, hmod⟩

/-- C8 (witness). -/
theorem C8_test_plan_replace_by_key_witness :
    parse_testing_plan data_tp_m = some { module_name := "m" }
    ∧ parse_testing_plan data_tp_m2 = some { module_name := "m" }
    ∧ (({} : ProjectContext).test_plans).Pairwise (fun u v => u.module_name ≠ v.module_name)
    ∧ (((update_project_context (update_project_context {} "test_plan" data_tp_m)
          "test_plan" data_tp_m2).test_plans).filter
            (fun u => u.module_name == ("m" : String)) = [{ module_name := "m" }]
      ∧ ((update_project_context (update_project_context {} "test_plan" data_tp_m)
          "test_plan" data_tp_m2).test_plans).length
          = ((update_project_context {} "test_plan" data_tp_m).test_plans).length) :=
  ⟨rfl, rfl, by simp,
    (C8_test_plan_replace_by_key.2 {} data_tp_m data_tp_m2
      { module_name := "m" } { module_name := "m" } rfl rfl rfl (by simp))⟩

theorem update_project_context_of_parse_fails (ctx : ProjectContext) {ot : String}
    (d : JDict) (hrec : ot ∈ recognized_output_types)
    (hfail : content_parse_fails ot d) :
    update_project_context ctx ot d = ctx := by
  obtain ⟨h1, h2, h3, h4, h5⟩ := hfail
  simp only [recognized_output_types, List.mem_cons, List.not_mem_nil, or_false] at hrec
  rcases hrec with rfl | rfl | rfl | rfl | rfl
  · simp [update_project_context, h1 rfl]
  · simp [update_project_context, h2 rfl]
  · simp [update_project_context, h3 rfl]
  · simp [update_project_context, h4 rfl]
  · simp [update_project_context, h5 rfl]

theorem get_from_append (dlist : List (String × List AgentOutput)) (a : String)
    (o : AgentOutput) :
    (match (append_agent_output dlist a o).find? (fun p => p.1 == a) with
      | none => ([] : List AgentOutput)
      | some p => p.2)
      = (match dlist.find? (fun p => p.1 == a) with
      | none => ([] : List AgentOutput)
      | some p => p.2) ++ [o] := by
  induction dlist with
  | nil => simp [append_agent_output, List.find?]
  | cons hd tl ih =>
    obtain ⟨k, l⟩ := hd
    by_cases hk : k == a
    · simp [append_agent_output, hk, List.find?]
    · simp only [append_agent_output, hk, Bool.false_eq_true, if_false]
      rw [List.find?_cons_of_neg _ (by simpa using hk),
        List.find?_cons_of_neg _ (by simpa using hk)]
      exact ih

/-- C10: storing a recognized output type with a payload that fails that
type's model validation raises nothing: the `AgentOutput` record is still
appended (retrievable via `get_agent_output`), the operation is logged,
and every content field of the project context is left unchanged. -/
theorem C10_invalid_payload_is_swallowed (store : SharedDataStore)
    (agent_name output_type : String) (data metadata : JDict)
    (hname : trim_str agent_name ≠ "")
    (hrec : output_type ∈ recognized_output_types)
    (hfail : content_parse_fails output_type data) :
    ∃ store2,
      store_agent_output store agent_name output_type data metadata = Except.ok store2
      ∧ store2.project_context = store.project_context
      ∧ get_agent_output store2 agent_name none
          = get_agent_output store agent_name none
            ++ [{ agent_name := trim_str agent_name, output_type := output_type,
                  data := data, metadata := metadata }]
      ∧ store2.workflow_history
          = store.workflow_history
            ++ [{ operation := "store_output", agent_name := agent_name,
                  output_type := output_type }] := by
  refine ⟨{ project_context := update_project_context store.project_context output_type data
            agent_outputs := append_agent_output store.agent_outputs agent_name
              { agent_name := trim_str agent_name, output_type := output_type
                data := data, metadata := metadata }
            workflow_history := store.workflow_history
              ++ [{ operation := "store_output", agent_name := agent_name
                    output_type := output_type }] }, ?_, ?_, ?_, ?_⟩
  · unfold store_agent_output mk_agent_output
    simp only [hname, if_false]
  · exact update_project_context_of_parse_fails store.project_context data hrec hfail
  · unfold get_agent_output
    exact get_from_append store.agent_outputs agent_name _
  · rfl

/-- C10 (witness). -/
theorem C10_invalid_payload_is_swallowed_witness :
    trim_str "X" ≠ ""
    ∧ "test_plan" ∈ recognized_output_types
    ∧ content_parse_fails "test_plan" data_bad
    ∧ ∃ store2,
      store_agent_output {} "X" "test_plan" data_bad [] = Except.ok store2
      ∧ store2.project_context = ({} : SharedDataStore).project_context
      ∧ get_agent_output store2 "X" none
          = get_agent_output {} "X" none
            ++ [{ agent_name := trim_str "X", output_type := "test_plan",
                  data := data_bad, metadata := [] }]
      ∧ store2.workflow_history
          = ({} : SharedDataStore).workflow_history
            ++ [{ operation := "store_output", agent_name := "X",
                  output_type := "test_plan" }] :=
  have hfail : content_parse_fails "test_plan" data_bad :=
    ⟨fun h => absurd h (by decide), fun h => absurd h (by decide), fun _ => rfl,
      fun h => absurd h (by decide), fun h => absurd h (by decide)⟩
  ⟨by decide, by decide, hfail,
    C10_invalid_payload_is_swallowed {} "X" "test_plan" data_bad []
      (by decide) (by decide) hfail⟩

/-! ## C1 — correctness of the depth-first topological sort -/

theorem is_registered_iff (reg : AgentRegistry) (x : String) :
    is_registered reg x = true ↔ x ∈ list_agents reg := by
  simp [is_registered]

theorem nodup_subset_length_le {l1 l2 : List String} (h1 : l1.Nodup)
    (hs : ∀ x ∈ l1, x ∈ l2) : l1.length ≤ l2.length :=
  (List.subperm_of_subset h1 hs).length_le

theorem deps_of_mem_registered {reg : AgentRegistry} (hdr : DepsRegistered reg)
    {a d : String} (hd : d ∈ deps_of reg a) : is_registered reg d = true := by
  unfold deps_of at hd
  cases hf : reg.find? (fun p => p.1 == a) with
  | none => rw [hf] at hd; simp at hd
  | some p =>
    rw [hf] at hd
    simp at hd
    exact hdr p (List.mem_of_find?_eq_some hf) d hd

theorem closed_append {reg : AgentRegistry} {l : List String} {a : String}
    (hc : ClosedUnder reg l) (hd : ∀ d ∈ deps_of reg a, d ∈ l) :
    ClosedUnder reg (l ++ [a]) := by
  intro i d hdep
  rcases Nat.lt_or_ge i.1 l.length with h | h
  · have hget : (l ++ [a]).get i = l.get ⟨i.1, h⟩ := by
      simp only [List.get_eq_getElem]
      exact List.getElem_append_left _
    rw [hget] at hdep
    have hmem := hc ⟨i.1, h⟩ d hdep
    rw [List.take_append_eq_append_take, Nat.sub_eq_zero_of_le (Nat.le_of_lt h)]
    simpa using hmem
  · have hlen : i.1 = l.length := by
      have h2 := i.2
      simp only [List.length_append, List.length_singleton] at h2
      omega
    have hget : (l ++ [a]).get i = a := by
      simp only [List.get_eq_getElem, hlen]
      rw [List.getElem_append_right] <;> simp
    rw [hget] at hdep
    rw [hlen, List.take_left]
    exact hd d hdep

theorem visit_deps_ok_spec (step : List String → String → Except String (List String))
    (chk : String → Bool) (errf : String → String) (Q : String → Prop)
    (C : List String → Prop)
    (hstep : ∀ r d r2, chk d = true → step r d = Except.ok r2 →
      (∃ t, r2 = r ++ t ∧ ∀ x ∈ t, Q x) ∧ d ∈ r2
      ∧ (r.Nodup → r2.Nodup) ∧ (C r → C r2)) :
    ∀ (ds r r2 : List String), visit_deps step chk errf r ds = Except.ok r2 →
      (∃ t, r2 = r ++ t ∧ ∀ x ∈ t, Q x) ∧ (∀ d ∈ ds, d ∈ r2)
      ∧ (r.Nodup → r2.Nodup) ∧ (C r → C r2) := by
  intro ds
  induction ds with
  | nil =>
    intro r r2 h
    simp only [visit_deps, Except.ok.injEq] at h
    subst h
    exact ⟨⟨[], by simp, by simp⟩, by simp, id, id⟩
  | cons d ds ih =>
    intro r r2 h
    simp only [visit_deps] at h
    by_cases hchk : chk d
    · rw [if_pos hchk] at h
      cases hm : step r d with
      | error e => rw [hm] at h; exact absurd h (by simp)
      | ok rm =>
        rw [hm] at h
        obtain ⟨⟨t1, ht1, hq1⟩, hd1, hn1, hc1⟩ := hstep r d rm hchk hm
        obtain ⟨⟨t2, ht2, hq2⟩, hds, hn2, hc2⟩ := ih rm r2 h
        refine ⟨⟨t1 ++ t2, by rw [ht2, ht1, List.append_assoc], ?_⟩, ?_,
          fun hn => hn2 (hn1 hn), fun hc => hc2 (hc1 hc)⟩
        · intro x hx
          rcases List.mem_append.mp hx with h2 | h2
          exacts [hq1 x h2, hq2 x h2]
        · intro e he
          rcases List.mem_cons.mp he with rfl | hmem
          · rw [ht2]; exact List.mem_append_left _ hd1
          · exact hds e hmem
    · rw [if_neg hchk] at h
      exact absurd h (by simp)

theorem visit_deps_ok_exists (step : List String → String → Except String (List String))
    (chk : String → Bool) (errf : String → String) :
    ∀ ds : List String, (∀ d ∈ ds, chk d = true) →
      (∀ r d, d ∈ ds → ∃ r2, step r d = Except.ok r2) →
      ∀ r, ∃ r2, visit_deps step chk errf r ds = Except.ok r2 := by
  intro ds
  induction ds with
  | nil => intro _ _ r; exact ⟨r, rfl⟩
  | cons d ds ih =>
    intro hchk hsucc r
    obtain ⟨rm, hrm⟩ := hsucc r d (List.mem_cons_self _ _)
    obtain ⟨r2, hr2⟩ := ih (fun x hx => hchk x (List.mem_cons_of_mem _ hx))
      (fun r3 x hx => hsucc r3 x (List.mem_cons_of_mem _ hx)) rm
    refine ⟨r2, ?_⟩
    simp only [visit_deps]
    rw [if_pos (hchk d (List.mem_cons_self _ _)), hrm]
    exact hr2

theorem visit_ok_spec (reg : AgentRegistry) :
    ∀ (fuel : Nat) (temp result : List String) (a : String) (r2 : List String),
      visit reg fuel temp result a = Except.ok r2 →
      is_registered reg a = true →
      (∃ t, r2 = result ++ t ∧ ∀ x ∈ t, is_registered reg x = true ∧ x ∉ temp)
      ∧ a ∈ r2 ∧ (result.Nodup → r2.Nodup)
      ∧ (ClosedUnder reg result → ClosedUnder reg r2) := by
  intro fuel
  induction fuel with
  | zero =>
    intro temp result a r2 h _
    simp only [visit] at h
    exact absurd h (by simp)
  | succ f ih =>
    intro temp result a r2 h hreg
    simp only [visit] at h
    by_cases hat : a ∈ temp
    · rw [if_pos hat] at h
      exact absurd h (by simp)
    · rw [if_neg hat] at h
      by_cases har : a ∈ result
      · rw [if_pos har] at h
        have hr2 : result = r2 := by simpa using h
        subst hr2
        exact ⟨⟨[], by simp, by simp⟩, har, id, id⟩
      · rw [if_neg har] at h
        cases hm : visit_deps (fun r d => visit reg f (a :: temp) r d)
            (fun d => is_registered reg d)
            (fun d => "Dependency " ++ d ++ " for agent " ++ a ++ " not found")
            result (deps_of reg a) with
        | error e => rw [hm] at h; exact absurd h (by simp)
        | ok rm =>
          rw [hm] at h
          have hr2 : r2 = rm ++ [a] := by
            have := h
            simp only [Except.ok.injEq] at this
            exact this.symm
          subst hr2
          obtain ⟨⟨t, hteq, htq⟩, hdsmem, hnod, hclos⟩ :=
            visit_deps_ok_spec (fun r d => visit reg f (a :: temp) r d)
              (fun d => is_registered reg d)
              (fun d => "Dependency " ++ d ++ " for agent " ++ a ++ " not found")
              (fun x => is_registered reg x = true ∧ x ∉ (a :: temp))
              (ClosedUnder reg)
              (fun r d r3 hchk hv => ih (a :: temp) r d r3 hv hchk)
              (deps_of reg a) result rm hm
          refine ⟨⟨t ++ [a], by rw [hteq, List.append_assoc], ?_⟩, ?_, ?_, ?_⟩
          · intro x hx
            rcases List.mem_append.mp hx with h2 | h2
            · exact ⟨(htq x h2).1, fun hx2 => (htq x h2).2 (List.mem_cons_of_mem _ hx2)⟩
            · have hxa : x = a := by simpa using h2
              subst hxa
              exact ⟨hreg, hat⟩
          · exact List.mem_append_right _ (List.mem_singleton.mpr rfl)
          · intro hn
            have hrm := hnod hn
            have hanotrm : a ∉ rm := by
              rw [hteq]
              intro hmem
              rcases List.mem_append.mp hmem with h2 | h2
              · exact har h2
              · exact (htq a h2).2 (List.mem_cons_self _ _)
            simp [List.nodup_append, hrm, hanotrm]
          · intro hc
            exact closed_append (hclos hc) (fun d hd => hdsmem d hd)

theorem visit_ok_of_acyclic (reg : AgentRegistry) (hdr : DepsRegistered reg)
    (hacc : Acyclic reg) (hkn : (list_agents reg).Nodup) :
    ∀ (fuel : Nat) (temp : List String) (a : String),
      is_registered reg a = true →
      temp.Nodup →
      (∀ t ∈ temp, is_registered reg t = true) →
      (∀ t ∈ temp, Relation.TransGen (DepRel reg) t a) →
      (list_agents reg).length + 1 ≤ fuel + temp.length →
      ∀ result, ∃ r2, visit reg fuel temp result a = Except.ok r2 := by
  intro fuel
  induction fuel with
  | zero =>
    intro temp a _ hnd htreg _ hfuel result
    exfalso
    have hle : temp.length ≤ (list_agents reg).length :=
      nodup_subset_length_le hnd
        (fun x hx => (is_registered_iff reg x).mp (htreg x hx))
    omega
  | succ f ih =>
    intro temp a hreg hnd htreg hchain hfuel result
    have hat : a ∉ temp := fun hmem => hacc a (hchain a hmem)
    by_cases har : a ∈ result
    · refine ⟨result, ?_⟩
      simp only [visit]
      rw [if_neg hat, if_pos har]
    · obtain ⟨rm, hrm⟩ := visit_deps_ok_exists
        (fun r d => visit reg f (a :: temp) r d)
        (fun d => is_registered reg d)
        (fun d => "Dependency " ++ d ++ " for agent " ++ a ++ " not found")
        (deps_of reg a)
        (fun d hd => deps_of_mem_registered hdr hd)
        (fun r d hd => ih (a :: temp) d
          (deps_of_mem_registered hdr hd)
          (List.nodup_cons.mpr ⟨hat, hnd⟩)
          (fun t ht => by
            rcases List.mem_cons.mp ht with rfl | h2
            exacts [hreg, htreg t h2])
          (fun t ht => by
            rcases List.mem_cons.mp ht with rfl | h2
            · exact Relation.TransGen.single hd
            · exact Relation.TransGen.tail (hchain t h2) hd)
          (by simp only [List.length_cons]; omega)
          r)
        result
      refine ⟨rm ++ [a], ?_⟩
      simp only [visit]
      rw [if_neg hat, if_neg har, hrm]

theorem order_loop_spec (reg : AgentRegistry) (hdr : DepsRegistered reg)
    (hacc : Acyclic reg) (hkn : (list_agents reg).Nodup) :
    ∀ (rest result : List String),
      result.Nodup → ClosedUnder reg result →
      (∀ x ∈ result, is_registered reg x = true) →
      (∀ x ∈ rest, is_registered reg x = true) →
      ∃ r2, order_loop reg (reg.length + 1) result rest = Except.ok r2
        ∧ r2.Nodup ∧ ClosedUnder reg r2
        ∧ (∀ x ∈ r2, is_registered reg x = true)
        ∧ (∀ x ∈ rest, x ∈ r2) ∧ (∀ x ∈ result, x ∈ r2) := by
  intro rest
  induction rest with
  | nil =>
    intro result h1 h2 h3 _
    exact ⟨result, rfl, h1, h2, h3, by simp, fun x hx => hx⟩
  | cons a rest ih =>
    intro result h1 h2 h3 h4
    have hareg : is_registered reg a = true := h4 a (List.mem_cons_self _ _)
    by_cases har : a ∈ result
    · obtain ⟨r2, heq, hn, hc, hr, hrest, hres⟩ :=
        ih result h1 h2 h3 (fun x hx => h4 x (List.mem_cons_of_mem _ hx))
      refine ⟨r2, ?_, hn, hc, hr, ?_, hres⟩
      · simp only [order_loop]
        rw [if_pos har]
        exact heq
      · intro x hx
        rcases List.mem_cons.mp hx with rfl | h2
        exacts [hres x har, hrest x h2]
    · have hfl : (list_agents reg).length + 1 ≤ (reg.length + 1) + ([] : List String).length := by
        simp [list_agents]
      obtain ⟨rm, hrm⟩ := visit_ok_of_acyclic reg hdr hacc hkn (reg.length + 1) [] a
        hareg (by simp) (by simp) (by simp) hfl result
      obtain ⟨⟨t, hteq, htq⟩, ham, hnod, hclos⟩ :=
        visit_ok_spec reg (reg.length + 1) [] result a rm hrm hareg
      have hrmreg : ∀ x ∈ rm, is_registered reg x = true := by
        intro x hx
        rw [hteq] at hx
        rcases List.mem_append.mp hx with h2 | h2
        exacts [h3 x h2, (htq x h2).1]
      obtain ⟨r2, heq, hn, hc, hr, hrest, hres⟩ :=
        ih rm (hnod h1) (hclos h2) hrmreg (fun x hx => h4 x (List.mem_cons_of_mem _ hx))
      refine ⟨r2, ?_, hn, hc, hr, ?_, ?_⟩
      · simp only [order_loop]
        rw [if_neg har, hrm]
        exact heq
      · intro x hx
        rcases List.mem_cons.mp hx with rfl | h2
        · exact hres x ham
        · exact hrest x h2
      · intro x hx
        apply hres
        rw [hteq]
        exact List.mem_append_left _ hx

theorem get_execution_order_topo_aux (reg : AgentRegistry)
    (hkn : (list_agents reg).Nodup) (hdr : DepsRegistered reg) (hacc : Acyclic reg) :
    ∃ l, get_execution_order reg = Except.ok l ∧ l.Perm (list_agents reg)
      ∧ ClosedUnder reg l := by
  obtain ⟨l, heq, hn, hc, hr, hall, _⟩ := order_loop_spec reg hdr hacc hkn
    (list_agents reg) [] (by simp) (fun i => absurd i.isLt (by simp)) (by simp)
    (fun x hx => (is_registered_iff reg x).mpr hx)
  refine ⟨l, heq, ?_, hc⟩
  have hsub1 : ∀ x ∈ l, x ∈ list_agents reg :=
    fun x hx => (is_registered_iff reg x).mp (hr x hx)
  exact (List.subperm_of_subset hn hsub1).antisymm (List.subperm_of_subset hkn hall)

/-- C1: for every registry (distinct names, as the backing dict guarantees)
whose declared dependencies all resolve and whose dependency graph is
acyclic, `get_execution_order` succeeds with a permutation of all
registered agent names in which every agent appears strictly after all of
its declared dependencies (each position's dependencies lie among the
strictly earlier elements). -/
theorem C1_execution_order_topological (reg : AgentRegistry)
    (hkeys : (list_agents reg).Nodup) (hdeps : DepsRegistered reg)
    (hacyc : Acyclic reg) :
    ∃ l, get_execution_order reg = Except.ok l
      ∧ l.Perm (list_agents reg)
      ∧ ∀ i : Fin l.length, ∀ d ∈ deps_of reg (l.get i), d ∈ l.take i.1 := by
  obtain ⟨l, h1, h2, h3⟩ := get_execution_order_topo_aux reg hkeys hdeps hacyc
  exact ⟨l, h1, h2, h3⟩

theorem deps_of_reg_pair (x : String) : deps_of reg_pair x = [] := by
  unfold deps_of
  cases hf : reg_pair.find? (fun p => p.1 == x) with
  | none => simp
  | some p =>
    have hp := List.mem_of_find?_eq_some hf
    have hnil : p.2 = [] := by
      simp only [reg_pair, List.mem_cons, List.not_mem_nil, or_false] at hp
      rcases hp with rfl | rfl <;> rfl
    simp [hnil]

theorem reg_pair_acyclic : Acyclic reg_pair := by
  intro a h
  rcases Relation.TransGen.head'_iff.mp h with ⟨b, hab, _⟩
  rw [DepRel, deps_of_reg_pair] at hab
  exact absurd hab (List.not_mem_nil b)

/-- C1 (witness). -/
theorem C1_execution_order_topological_witness :
    (list_agents reg_pair).Nodup ∧ DepsRegistered reg_pair ∧ Acyclic reg_pair
    ∧ ∃ l, get_execution_order reg_pair = Except.ok l
      ∧ l.Perm (list_agents reg_pair)
      ∧ ∀ i : Fin l.length, ∀ d ∈ deps_of reg_pair (l.get i), d ∈ l.take i.1 :=
  ⟨by decide, by unfold DepsRegistered; decide, reg_pair_acyclic,
    C1_execution_order_topological reg_pair (by decide)
      (by unfold DepsRegistered; decide) reg_pair_acyclic⟩

/-! ## Coordinator loop lemmas (C3, C4, C6) -/

theorem add_completed_agent_failed (res : WorkflowResult) (a : String) :
    (add_completed_agent res a).failed_agents = res.failed_agents := by
  unfold add_completed_agent
  split_ifs <;> rfl

theorem add_completed_agent_success (res : WorkflowResult) (a : String) :
    (add_completed_agent res a).success = res.success := by
  unfold add_completed_agent
  split_ifs <;> rfl

theorem add_failed_agent_success (res : WorkflowResult) (a : String) :
    (add_failed_agent res a).success = res.success := by
  unfold add_failed_agent
  split_ifs <;> rfl

theorem mem_add_completed_agent (res : WorkflowResult) (a x : String) :
    x ∈ (add_completed_agent res a).completed_agents
      ↔ x ∈ res.completed_agents ∨ x = a := by
  unfold add_completed_agent
  split_ifs with h
  · exact ⟨Or.inl, fun hx => hx.elim id (fun he => he ▸ h)⟩
  · simp

theorem mem_add_failed_agent (res : WorkflowResult) (a x : String) :
    x ∈ (add_failed_agent res a).failed_agents
      ↔ x ∈ res.failed_agents ∨ x = a := by
  unfold add_failed_agent
  split_ifs with h
  · exact ⟨Or.inl, fun hx => hx.elim id (fun he => he ▸ h)⟩
  · simp

theorem retry_loop_congr (b b2 : AgentBehavior) (m : Nat) (a : String) :
    ∀ (rem rc : Nat) (ws : WorkflowState), rc + rem = m + 1 →
      (∀ j, j ≤ m → b a j = b2 a j) →
      retry_loop b m a rem rc ws = retry_loop b2 m a rem rc ws := by
  intro rem
  induction rem with
  | zero => intro rc ws _ _; rfl
  | succ r ih =>
    intro rc ws hsum hagree
    have hrc : rc ≤ m := by omega
    simp only [retry_loop]
    rw [← hagree rc hrc]
    cases hb : b a rc with
    | none => rfl
    | some err =>
      dsimp only
      by_cases hle : rc + 1 ≤ m
      · rw [if_pos hle, if_pos hle]
        exact ih (rc + 1) _ (by omega) hagree
      · rw [if_neg hle, if_neg hle]

theorem retry_loop_succeeds (b : AgentBehavior) (m : Nat) (a : String) :
    ∀ (rem rc : Nat) (ws : WorkflowState), rc + rem = m + 1 →
      (∃ j, rc ≤ j ∧ j ≤ m ∧ b a j = none) →
      (retry_loop b m a rem rc ws).1 = true := by
  intro rem
  induction rem with
  | zero =>
    intro rc ws hsum hj
    obtain ⟨j, hj1, hj2, _⟩ := hj
    omega
  | succ r ih =>
    intro rc ws hsum hj
    simp only [retry_loop]
    cases hb : b a rc with
    | none => rfl
    | some err =>
      dsimp only
      obtain ⟨j, hj1, hj2, hj3⟩ := hj
      have hne : j ≠ rc := fun he => by rw [he, hb] at hj3; exact Option.noConfusion hj3
      have hle : rc + 1 ≤ m := by omega
      rw [if_pos hle]
      exact ih (rc + 1) _ (by omega) ⟨j, by omega, hj2, hj3⟩

theorem execute_agent_with_retry_succeeds (b : AgentBehavior) (m : Nat) (a : String)
    (ws : WorkflowState) (h : ∃ j, j ≤ m ∧ b a j = none) :
    (execute_agent_with_retry b m a ws).1 = true := by
  obtain ⟨j, hj1, hj2⟩ := h
  exact retry_loop_succeeds b m a (m + 1) 0 ws (by omega) ⟨j, Nat.zero_le _, hj1, hj2⟩

theorem run_agents_all_success (total : Nat) (b : AgentBehavior) (m : Nat) :
    ∀ (l : List String) (ws : WorkflowState) (res : WorkflowResult),
      (∀ x ∈ l, ∃ j, j ≤ m ∧ b x j = none) →
      ∃ ws2 res2, run_agents total b m l ws res = (ws2, res2, none)
        ∧ res2.failed_agents = res.failed_agents
        ∧ res2.success = res.success
        ∧ (∀ x, x ∈ res2.completed_agents ↔ x ∈ res.completed_agents ∨ x ∈ l) := by
  intro l
  induction l with
  | nil =>
    intro ws res _
    exact ⟨ws, res, rfl, rfl, rfl, by simp⟩
  | cons a l ih =>
    intro ws res hsucc
    have hret : (execute_agent_with_retry b m a ws).1 = true :=
      execute_agent_with_retry_succeeds b m a ws (hsucc a (List.mem_cons_self _ _))
    obtain ⟨ws2, res2, heq, hf, hs, hc⟩ :=
      ih { mark_agent_completed (execute_agent_with_retry b m a ws).2 a with
            current_agent := none }
        (add_completed_agent res a)
        (fun x hx => hsucc x (List.mem_cons_of_mem _ hx))
    refine ⟨ws2, res2, ?_, ?_, ?_, ?_⟩
    · simp only [run_agents, hret, if_true]
      exact heq
    · rw [hf, add_completed_agent_failed]
    · rw [hs, add_completed_agent_success]
    · intro x
      rw [hc x, mem_add_completed_agent]
      simp only [List.mem_cons]
      tauto

theorem run_agents_append (total : Nat) (b : AgentBehavior) (m : Nat) :
    ∀ (l1 l2 : List String) (ws : WorkflowState) (res : WorkflowResult),
      run_agents total b m (l1 ++ l2) ws res
        = match run_agents total b m l1 ws res with
          | (ws2, res2, none) => run_agents total b m l2 ws2 res2
          | (ws2, res2, some msg) => (ws2, res2, some msg) := by
  intro l1
  induction l1 with
  | nil => intro l2 ws res; rfl
  | cons a l1 ih =>
    intro l2 ws res
    simp only [List.cons_append, run_agents]
    by_cases h1 : (execute_agent_with_retry b m a ws).1 = true
    · simp only [h1, if_true]
      exact ih l2 _ _
    · simp only [h1, if_false, Bool.false_eq_true]
      split_ifs with h2 h3
      · rfl
      · exact ih l2 _ _
      · exact ih l2 _ _

theorem run_agents_success_invariant (total : Nat) (b : AgentBehavior) (m : Nat) :
    ∀ (l : List String) (ws : WorkflowState) (res : WorkflowResult)
      (ws2 : WorkflowState) (res2 : WorkflowResult) (o : Option String),
      run_agents total b m l ws res = (ws2, res2, o) → res2.success = res.success := by
  intro l
  induction l with
  | nil =>
    intro ws res ws2 res2 o h
    simp only [run_agents, Prod.mk.injEq] at h
    rw [← h.2.1]
  | cons a l ih =>
    intro ws res ws2 res2 o h
    simp only [run_agents] at h
    by_cases h1 : (execute_agent_with_retry b m a ws).1 = true
    · rw [if_pos h1] at h
      rw [ih _ _ _ _ _ h, add_completed_agent_success]
    · rw [if_neg h1] at h
      split at h
      · split at h
        · simp only [Prod.mk.injEq] at h
          rw [← h.2.1, add_failed_agent_success, add_failed_agent_success]
        · rw [ih _ _ _ _ _ h, add_failed_agent_success, add_failed_agent_success]
      · rw [ih _ _ _ _ _ h, add_failed_agent_success]

theorem should_abort_of_critical (total : Nat) (a : String) (ws : WorkflowState)
    (h : a ∈ critical_agents) : should_abort_workflow total a ws = true := by
  unfold should_abort_workflow
  rw [if_pos h]

/-! ## C3 — critical-agent failure aborts the workflow -/

/-- C3: a critical agent that exhausts all retry attempts (reached by the
loop, with its retry returning failure) makes `execute_workflow` return
`success = false` with that agent among the failed agents; and
`_should_abort_workflow` is true exactly when the failed agent is critical
or the failed fraction of registered agents exceeds 50%. -/
theorem C3_critical_failure_aborts :
    (∀ (reg : AgentRegistry) (behavior : AgentBehavior) (m : Nat) (wid : String)
        (t0 t1 : Nat) (pre post : List String) (c : String)
        (ws1 : WorkflowState) (res1 : WorkflowResult),
      (list_agents reg).isEmpty = false →
      validate_dependencies reg = Except.ok () →
      get_execution_order reg = Except.ok (pre ++ c :: post) →
      c ∈ critical_agents →
      run_agents (list_agents reg).length behavior m pre
          (initial_workflow_state wid t0) (initial_workflow_result wid)
        = (ws1, res1, none) →
      (execute_agent_with_retry behavior m c ws1).1 = false →
      ((execute_workflow reg behavior m wid t0 t1).1.success = false
        ∧ c ∈ (execute_workflow reg behavior m wid t0 t1).1.failed_agents))
    ∧ (∀ (total : Nat) (a : String) (ws : WorkflowState), 0 < total →
      (should_abort_workflow total a ws = true
        ↔ (a ∈ critical_agents
          ∨ ((ws.failed_agents.length : Rat) / (total : Rat) > (1 : Rat) / 2)))) := by
  constructor
  · intro reg behavior m wid t0 t1 pre post c ws1 res1 hne hval hord hcrit hpre hfail
    have hrun : ∃ ws3 res3 msg,
        run_agents (list_agents reg).length behavior m (pre ++ c :: post)
          (initial_workflow_state wid t0) (initial_workflow_result wid)
          = (ws3, res3, some msg)
        ∧ res3.success = res1.success ∧ c ∈ res3.failed_agents := by
      rw [run_agents_append, hpre]
      simp only [run_agents, hfail, if_false, Bool.false_eq_true]
      rw [if_pos (should_abort_of_critical _ _ _ hcrit)]
      rw [if_pos (should_abort_of_critical _ _ _ hcrit)]
      refine ⟨_, _, _, rfl, ?_, ?_⟩
      · rw [add_failed_agent_success, add_failed_agent_success]
      · rw [mem_add_failed_agent]
        exact Or.inr rfl
    obtain ⟨ws3, res3, msg, hrun, hsuc, hmem⟩ := hrun
    have hsuc1 : res1.success = false :=
      run_agents_success_invariant _ _ _ _ _ _ _ _ _ hpre
    unfold execute_workflow
    rw [hne, hval, hord]
    simp only [Bool.false_eq_true, if_false, hrun]
    exact ⟨hsuc.trans hsuc1, hmem⟩
  · intro total a ws htot
    unfold should_abort_workflow
    have h05 : (0.5 : Rat) = (1 : Rat) / 2 := by norm_num
    split_ifs with h1 h2
    · exact iff_of_true rfl (Or.inl h1)
    · rw [h05] at h2
      exact iff_of_true rfl (Or.inr h2)
    · rw [h05] at h2
      exact iff_of_false (by simp) (by rintro (h | h); exacts [h1 h, h2 h])

/-- C3 (witness). -/
theorem C3_critical_failure_aborts_witness :
    (list_agents reg_planning).isEmpty = false
    ∧ validate_dependencies reg_planning = Except.ok ()
    ∧ get_execution_order reg_planning = Except.ok ([] ++ "ProjectPlanningAgent" :: [])
    ∧ "ProjectPlanningAgent" ∈ critical_agents
    ∧ run_agents (list_agents reg_planning).length behavior_all_fail 3 []
        (initial_workflow_state "w" 0) (initial_workflow_result "w")
        = (initial_workflow_state "w" 0, initial_workflow_result "w", none)
    ∧ (execute_agent_with_retry behavior_all_fail 3 "ProjectPlanningAgent"
        (initial_workflow_state "w" 0)).1 = false
    ∧ ((execute_workflow reg_planning behavior_all_fail 3 "w" 0 1).1.success = false
      ∧ "ProjectPlanningAgent"
          ∈ (execute_workflow reg_planning behavior_all_fail 3 "w" 0 1).1.failed_agents)
    ∧ (0 < 2
      ∧ (should_abort_workflow 2 "X" ws_fresh = true
        ↔ ("X" ∈ critical_agents
          ∨ ((ws_fresh.failed_agents.length : Rat) / (2 : Rat) > (1 : Rat) / 2)))) :=
  ⟨rfl, rfl, rfl, by decide, rfl, by decide,
    C3_critical_failure_aborts.1 reg_planning behavior_all_fail 3 "w" 0 1 [] []
      "ProjectPlanningAgent" (initial_workflow_state "w" 0) (initial_workflow_result "w")
      rfl rfl rfl (by decide) rfl (by decide),
    by decide,
    C3_critical_failure_aborts.2 2 "X" ws_fresh (by decide)⟩

/-! ## C4 — retry bound and the flaky-agent scenario -/

/-- C4: `_execute_agent_with_retry` inspects at most the first
`max_retries + 1` attempt outcomes (its whole result is unchanged by any
modification of later attempts), and with `max_retries = 3` an agent that
raises on its first two attempts and succeeds on the third yields an
overall successful workflow with the agent in `completed_agents` only. -/
theorem C4_retry_bound_and_third_attempt :
    (∀ (b b2 : AgentBehavior) (m : Nat) (a : String) (ws : WorkflowState),
      (∀ j, j ≤ m → b a j = b2 a j) →
      execute_agent_with_retry b m a ws = execute_agent_with_retry b2 m a ws)
    ∧ (∀ (reg : AgentRegistry) (behavior : AgentBehavior) (wid : String) (t0 t1 : Nat)
        (a : String) (order : List String) (e1 e2 : String),
      (list_agents reg).isEmpty = false →
      validate_dependencies reg = Except.ok () →
      get_execution_order reg = Except.ok order →
      a ∈ order →
      behavior a 0 = some e1 → behavior a 1 = some e2 → behavior a 2 = none →
      (∀ x, x ≠ a → behavior x 0 = none) →
      ((execute_workflow reg behavior 3 wid t0 t1).1.success = true
        ∧ a ∈ (execute_workflow reg behavior 3 wid t0 t1).1.completed_agents
        ∧ a ∉ (execute_workflow reg behavior 3 wid t0 t1).1.failed_agents)) := by
  constructor
  · intro b b2 m a ws hagree
    exact retry_loop_congr b b2 m a (m + 1) 0 ws (by omega) hagree
  · intro reg behavior wid t0 t1 a order e1 e2 hne hval hord hmem h0 h1 h2 hother
    have hsucc : ∀ x ∈ order, ∃ j, j ≤ 3 ∧ behavior x j = none := by
      intro x hx
      by_cases hxa : x = a
      · exact ⟨2, by omega, hxa ▸ h2⟩
      · exact ⟨0, by omega, hother x hxa⟩
    obtain ⟨ws2, res2, heq, hf, hs, hc⟩ :=
      run_agents_all_success (list_agents reg).length behavior 3 order
        (initial_workflow_state wid t0) (initial_workflow_result wid) hsucc
    unfold execute_workflow
    rw [hne, hval, hord]
    simp only [Bool.false_eq_true, if_false, heq]
    refine ⟨by trivial, ?_, ?_⟩
    · rw [hc a]
      exact Or.inr hmem
    · rw [hf]
      simp [initial_workflow_result]

/-- C4 (witness): agent "B" of the two-agent registry raises on attempts
one and two and succeeds on the third. -/
theorem C4_retry_bound_and_third_attempt_witness :
    (∀ j, j ≤ 3 → behavior_b_flaky "A" j = behavior_all_ok "A" j)
    ∧ execute_agent_with_retry behavior_b_flaky 3 "A" ws_fresh
        = execute_agent_with_retry behavior_all_ok 3 "A" ws_fresh
    ∧ (list_agents reg_pair).isEmpty = false
    ∧ validate_dependencies reg_pair = Except.ok ()
    ∧ get_execution_order reg_pair = Except.ok ["A", "B"]
    ∧ "B" ∈ ["A", "B"]
    ∧ behavior_b_flaky "B" 0 = some "flaky failure"
    ∧ behavior_b_flaky "B" 1 = some "flaky failure"
    ∧ behavior_b_flaky "B" 2 = none
    ∧ ((execute_workflow reg_pair behavior_b_flaky 3 "w" 0 1).1.success = true
      ∧ "B" ∈ (execute_workflow reg_pair behavior_b_flaky 3 "w" 0 1).1.completed_agents
      ∧ "B" ∉ (execute_workflow reg_pair behavior_b_flaky 3 "w" 0 1).1.failed_agents) :=
  ⟨by decide,
    C4_retry_bound_and_third_attempt.1 behavior_b_flaky behavior_all_ok 3 "A" ws_fresh
      (by decide),
    rfl, rfl, rfl, by decide, by decide, by decide, by decide,
    C4_retry_bound_and_third_attempt.2 reg_pair behavior_b_flaky "w" 0 1 "B" ["A", "B"]
      "flaky failure" "flaky failure" rfl rfl rfl (by decide)
      (by decide) (by decide) (by decide)
      (fun x hx => by
        unfold behavior_b_flaky
        simp [hx])⟩

/-! ## C6 — cancellation is not observed by the loop -/

/-- C6 (counterexample): in the two-agent registry with all attempts
succeeding, invoking `cancel_workflow` at the boundary after the first
agent does not stop the run: the second agent still executes and
completes, and the final status is Completed — the run leaves the
terminal Cancelled state. -/
theorem C6_counterexample :
    (execute_workflow_with_cancel_at reg_pair behavior_all_ok 3 "w" 0 5 9 1).1.success = true
    ∧ "B" ∈ (execute_workflow_with_cancel_at reg_pair behavior_all_ok 3 "w" 0 5 9 1
        ).1.completed_agents
    ∧ (execute_workflow_with_cancel_at reg_pair behavior_all_ok 3 "w" 0 5 9 1
        ).2.map WorkflowState.status = some WorkflowStatus.completed
    ∧ ¬ (execute_workflow_with_cancel_at reg_pair behavior_all_ok 3 "w" 0 5 9 1
        ).2.map WorkflowState.status = some WorkflowStatus.cancelled := by
  decide

/-- C6 (amended): `cancel_workflow` does set status Cancelled and record an
end timestamp, but the execution loop performs no cancellation check: in a
run where every agent's retry succeeds, agents after the cancellation
boundary still execute and complete, and the epilogue overwrites the
status with Completed, so Cancelled is not terminal for the run. -/
theorem C6_cancel_set_but_ignored :
    (∀ (ws : WorkflowState) (t : Nat),
      (cancel_workflow ws t).status = WorkflowStatus.cancelled
      ∧ (cancel_workflow ws t).end_time = some t)
    ∧ (∀ (reg : AgentRegistry) (behavior : AgentBehavior) (m : Nat) (wid : String)
        (t0 tc t1 k : Nat) (order : List String) (a : String),
      (list_agents reg).isEmpty = false →
      validate_dependencies reg = Except.ok () →
      get_execution_order reg = Except.ok order →
      (∀ x ∈ order, ∃ j, j ≤ m ∧ behavior x j = none) →
      a ∈ order.drop k →
      ∃ res wsF,
        execute_workflow_with_cancel_at reg behavior m wid t0 tc t1 k = (res, some wsF)
        ∧ res.success = true ∧ a ∈ res.completed_agents
        ∧ wsF.status = WorkflowStatus.completed) := by
  constructor
  · intro ws t
    exact ⟨rfl, rfl⟩
  · intro reg behavior m wid t0 tc t1 k order a hne hval hord hsucc ha
    obtain ⟨wsA, resA, heqA, hfA, hsA, hcA⟩ :=
      run_agents_all_success (list_agents reg).length behavior m (order.take k)
        (initial_workflow_state wid t0) (initial_workflow_result wid)
        (fun x hx => hsucc x (List.take_subset k order hx))
    obtain ⟨wsB, resB, heqB, hfB, hsB, hcB⟩ :=
      run_agents_all_success (list_agents reg).length behavior m (order.drop k)
        (cancel_workflow wsA tc) resA
        (fun x hx => hsucc x (List.drop_subset k order hx))
    unfold execute_workflow_with_cancel_at
    rw [hne, hval, hord]
    simp only [Bool.false_eq_true, if_false, heqA, heqB]
    refine ⟨_, _, rfl, rfl, ?_, rfl⟩
    rw [hcB a]
    exact Or.inr ha

/-- C6 (witness). -/
theorem C6_cancel_set_but_ignored_witness :
    ((cancel_workflow ws_fresh 5).status = WorkflowStatus.cancelled
      ∧ (cancel_workflow ws_fresh 5).end_time = some 5)
    ∧ (list_agents reg_pair).isEmpty = false
    ∧ validate_dependencies reg_pair = Except.ok ()
    ∧ get_execution_order reg_pair = Except.ok ["A", "B"]
    ∧ "B" ∈ (["A", "B"] : List String).drop 1
    ∧ ∃ res wsF,
        execute_workflow_with_cancel_at reg_pair behavior_all_ok 3 "w" 0 5 9 1
          = (res, some wsF)
        ∧ res.success = true ∧ "B" ∈ res.completed_agents
        ∧ wsF.status = WorkflowStatus.completed :=
  ⟨C6_cancel_set_but_ignored.1 ws_fresh 5, rfl, rfl, rfl, by decide,
    C6_cancel_set_but_ignored.2 reg_pair behavior_all_ok 3 "w" 0 5 9 1 ["A", "B"] "B"
      rfl rfl rfl (fun x _ => ⟨0, by omega, rfl⟩) (by decide)⟩
